import Mathlib

/-!
Verification of the Subscription & Content Access model of the Edumate
backend.  The entity schemas (field types, defaults, foreign keys,
uniqueness indexes, validations) are embedded from the Sequelize model
files `backend/src/models/Course.js`, `backend/src/models/CourseContent.js`
and the Subscription model file.  The lifecycle operations (`subscribe`,
`cancel`, `expire`, `recordProgress`, `canAccess`) and the Entity Store
create/update operations are absent from the repository sources (the route
files are stubs), so they are modelled from the specification, as marked
on each definition.
-/

namespace Edumate

deriving instance DecidableEq for Except

/-- User role, per the spec data model: student, teacher or admin. -/
inductive Role where
| student
| teacher
| admin
deriving DecidableEq, Repr

/-- Course.status ENUM from Course.js: draft, published, archived. -/
inductive CourseStatus where
| draft
| published
| archived
deriving DecidableEq, Repr

/-- Subscription.status ENUM from the Subscription model: active, expired, cancelled. -/
inductive SubStatus where
| active
| expired
| cancelled
deriving DecidableEq, Repr

/-- CourseContent.type ENUM from CourseContent.js: video, document, assignment, quiz, text. -/
inductive ContentType where
| video
| document
| assignment
| quiz
| text
deriving DecidableEq, Repr

/-- Modelled from the spec: the User entity (its model file is not among the
sources); an identity with a role.  Only the fields the access and
lifecycle logic reads are carried. -/
structure User where
id : Nat
role : Role
deriving DecidableEq, Repr

/-- Course row per Course.js: price is DECIMAL(10,2), modelled in cents as
an integer; status defaults to draft; teacherId is a foreign key into
users. -/
structure Course where
id : Nat
title : String
price : Int
status : CourseStatus
teacherId : Nat
deriving DecidableEq, Repr

/-- CourseContent row per CourseContent.js: courseId is a foreign key into
courses; order is an integer with default value 0 and no uniqueness
declaration; isFree is a boolean with default value false. -/
structure CourseContent where
id : Nat
courseId : Nat
title : String
type : ContentType
order : Nat
isFree : Bool
deriving DecidableEq, Repr

/-- Subscription row per the Subscription model: status defaults to active,
startDate defaults to now, endDate is nullable (none means no fixed end),
progress is an integer validated to lie in 0..100, completed defaults to
false.  Dates are modelled as natural-number timestamps. -/
structure Subscription where
id : Nat
studentId : Nat
courseId : Nat
status : SubStatus
startDate : Nat
endDate : Option Nat
progress : Int
completed : Bool
deriving DecidableEq, Repr

/-- Payment row per the spec: links a user and a course; the gateway-defined
status is consumed by this core only as a success boolean. -/
structure Payment where
id : Nat
userId : Nat
courseId : Nat
success : Bool
deriving DecidableEq, Repr

/-- The persistent store: one table per entity, plus the auto-increment
counters for the primary keys the operations allocate. -/
structure Store where
users : List User
courses : List Course
contents : List CourseContent
subs : List Subscription
payments : List Payment
nextSubId : Nat
nextContentId : Nat
nextCourseId : Nat
deriving DecidableEq, Repr

/-- Resolve a user id. -/
def findUser (st : Store) (userId : Nat) : Option User :=
st.users.find? fun u => u.id == userId

/-- Resolve a course id. -/
def findCourse (st : Store) (courseId : Nat) : Option Course :=
st.courses.find? fun c => c.id == courseId

/-- Resolve a content id. -/
def findContent (st : Store) (contentId : Nat) : Option CourseContent :=
st.contents.find? fun x => x.id == contentId

/-- Resolve a subscription id (primary key). -/
def findSubById (st : Store) (subscriptionId : Nat) : Option Subscription :=
st.subs.find? fun s => s.id == subscriptionId

/-- The Subscription row for a (studentId, courseId) pair, the lookup backed
by the composite unique index declared in the Subscription model. -/
def findSubByPair (st : Store) (studentId courseId : Nat) : Option Subscription :=
st.subs.find? fun s => s.studentId == studentId && s.courseId == courseId

/-- Replace the subscription row carrying the id of the given row. -/
def replaceSub (st : Store) (s' : Subscription) : Store :=
{ st with subs := st.subs.map fun t => if t.id = s'.id then s' else t }

/-- Error taxonomy from the spec (section 7). -/
inductive SubError where
| notFound
| constraintViolation
| courseNotPublished
| paymentRequired
| subscriptionNotActive
| invalidProgress
deriving DecidableEq, Repr

/-- Modelled from the spec: the Payment-status lookup consumed by
`subscribe` — has this student a successful Payment for this course? -/
def hasSuccessfulPayment (st : Store) (studentId courseId : Nat) : Bool :=
st.payments.any fun p => p.userId == studentId && p.courseId == courseId && p.success

/-- The in-place rewrite of an existing Subscription row performed by a
re-subscription: startDate reset to now, status active, endDate
recomputed, progress reset to 0, completed reset to false. -/
def resubscribedRow (s : Subscription) (now : Nat) (newEnd : Option Nat) : Subscription :=
{ s with status := SubStatus.active, startDate := now, endDate := newEnd,
         progress := 0, completed := false }

/-- The fresh Subscription row inserted by a first subscription, carrying
the next auto-increment id and the column defaults of the Subscription
model (status active, progress 0, completed false). -/
def freshSubRow (st : Store) (now : Nat) (newEnd : Option Nat) (studentId courseId : Nat) :
    Subscription :=
{ id := st.nextSubId, studentId := studentId, courseId := courseId,
  status := SubStatus.active, startDate := now, endDate := newEnd,
  progress := 0, completed := false }

/-- The store after inserting a fresh Subscription row. -/
def insertSub (st : Store) (s : Subscription) : Store :=
{ st with subs := s :: st.subs, nextSubId := st.nextSubId + 1 }

/-- Modelled from the spec: `subscribe(studentId, courseId)` (section 4.2);
the operation itself is absent from the sources (the subscription route is
a stub).  Ids must resolve to a student-role User and a published Course;
an existing active row is returned unchanged; an existing cancelled or
expired row is updated in place (startDate reset to now, status active,
endDate recomputed, progress reset to 0, and completed reset to false to
keep the completed-only-at-100 invariant); otherwise a fresh row is
inserted.  A positive price without a successful Payment yields
PaymentRequired.  The recomputed endDate has no formula in the spec, so it
is taken as the input `newEnd`.  The operation returns the result and the
store after the call (unchanged on failure). -/
def subscribe (st : Store) (now : Nat) (newEnd : Option Nat) (studentId courseId : Nat) :
    Except SubError Subscription × Store :=
match findUser st studentId, findCourse st courseId with
| some u, some c =>
  if u.role = Role.student then
    if c.status = CourseStatus.published then
      match findSubByPair st studentId courseId with
      | some s =>
        if s.status = SubStatus.active then (Except.ok s, st)
        else if 0 < c.price ∧ hasSuccessfulPayment st studentId courseId = false then
          (Except.error SubError.paymentRequired, st)
        else
          (Except.ok (resubscribedRow s now newEnd), replaceSub st (resubscribedRow s now newEnd))
      | none =>
        if 0 < c.price ∧ hasSuccessfulPayment st studentId courseId = false then
          (Except.error SubError.paymentRequired, st)
        else
          (Except.ok (freshSubRow st now newEnd studentId courseId),
            insertSub st (freshSubRow st now newEnd studentId courseId))
    else (Except.error SubError.courseNotPublished, st)
  else (Except.error SubError.notFound, st)
| _, _ => (Except.error SubError.notFound, st)

/-- Modelled from the spec: `cancel(subscriptionId)` (section 4.2); absent
from the sources.  Sets status to cancelled on an active row; on an
already-cancelled or expired row it is a no-op returning the current
state, not an error. -/
def cancel (st : Store) (subscriptionId : Nat) : Except SubError Subscription × Store :=
match findSubById st subscriptionId with
| none => (Except.error SubError.notFound, st)
| some s =>
  if s.status = SubStatus.active then
    let s' : Subscription := { s with status := SubStatus.cancelled }
    (Except.ok s', replaceSub st s')
  else (Except.ok s, st)

/-- Has the subscription's endDate passed?  A null endDate means no fixed
end, which never passes. -/
def endDatePassed (s : Subscription) (now : Nat) : Bool :=
match s.endDate with
| none => false
| some e => e < now

/-- Modelled from the spec: `expire(subscriptionId)` (section 4.2); absent
from the sources.  The system-driven transition invoked when now() is past
endDate: it sets an active row whose endDate has passed to expired, and
otherwise leaves the row as it is (the state machine permits no other
transition into expired). -/
def expire (st : Store) (now : Nat) (subscriptionId : Nat) : Except SubError Subscription × Store :=
match findSubById st subscriptionId with
| none => (Except.error SubError.notFound, st)
| some s =>
  if s.status = SubStatus.active ∧ endDatePassed s now = true then
    let s' : Subscription := { s with status := SubStatus.expired }
    (Except.ok s', replaceSub st s')
  else (Except.ok s, st)

/-- Modelled from the spec: `recordProgress(subscriptionId, newProgress)`
(section 4.4); absent from the sources.  Values outside 0..100 are
rejected with InvalidProgress (the range is the min/max validation on the
progress column); a row whose status is not active is rejected with
SubscriptionNotActive; on success progress is set and completed becomes
true exactly when newProgress is 100.  The store is unchanged on every
failure. -/
def recordProgress (st : Store) (subscriptionId : Nat) (newProgress : Int) :
    Except SubError Subscription × Store :=
if newProgress < 0 ∨ 100 < newProgress then (Except.error SubError.invalidProgress, st)
else
  match findSubById st subscriptionId with
  | none => (Except.error SubError.notFound, st)
  | some s =>
    if s.status = SubStatus.active then
      let s' : Subscription := { s with progress := newProgress, completed := newProgress == 100 }
      (Except.ok s', replaceSub st s')
    else (Except.error SubError.subscriptionNotActive, st)

/-- Reasons returned by the access resolver; the spec names
SubscriptionActive and NoActiveSubscription, and the three unconditional
allow rules are tagged by the rule that fired. -/
inductive AccessReason where
| ownerTeacher
| adminRole
| freePreview
| subscriptionActive
| noActiveSubscription
deriving DecidableEq, Repr

/-- The decision returned by canAccess: allowed plus a reason. -/
structure AccessDecision where
allowed : Bool
reason : AccessReason
deriving DecidableEq, Repr

/-- Modelled from the spec: `canAccess(userId, contentId)` (section 4.3);
absent from the sources (the content route is a stub).  Rules in order:
owner teacher of the parent course (regardless of publish status); admin
role; free content on a published course; otherwise the (userId, courseId)
Subscription decides — active allows with SubscriptionActive, anything
else denies with NoActiveSubscription.  Pure read, no mutation. -/
def canAccess (st : Store) (userId contentId : Nat) : Except SubError AccessDecision :=
match findUser st userId, findContent st contentId with
| some u, some x =>
  match findCourse st x.courseId with
  | none => Except.error SubError.notFound
  | some c =>
    if c.teacherId = userId then Except.ok ⟨true, AccessReason.ownerTeacher⟩
    else if u.role = Role.admin then Except.ok ⟨true, AccessReason.adminRole⟩
    else if x.isFree = true ∧ c.status = CourseStatus.published then
      Except.ok ⟨true, AccessReason.freePreview⟩
    else
      match findSubByPair st userId x.courseId with
      | some s =>
        if s.status = SubStatus.active then Except.ok ⟨true, AccessReason.subscriptionActive⟩
        else Except.ok ⟨false, AccessReason.noActiveSubscription⟩
      | none => Except.ok ⟨false, AccessReason.noActiveSubscription⟩
| _, _ => Except.error SubError.notFound

/-- Input to content creation, per the CourseContent.js columns: order and
isFree are optional and take the declared defaults (0 and false) when not
supplied. -/
structure ContentInput where
courseId : Nat
title : String
type : ContentType
order : Option Nat
isFree : Option Bool
deriving DecidableEq, Repr

/-- Modelled from the spec: the Entity Store create operation for
CourseContent (section 4.1); absent from the sources.  It enforces the
declared foreign key — courseId must reference an existing Course — and
fills the declared defaults of CourseContent.js: order 0, isFree false. -/
def createContent (st : Store) (inp : ContentInput) : Except SubError CourseContent × Store :=
match findCourse st inp.courseId with
| none => (Except.error SubError.constraintViolation, st)
| some _ =>
  let x : CourseContent :=
    { id := st.nextContentId, courseId := inp.courseId, title := inp.title,
      type := inp.type, order := inp.order.getD 0, isFree := inp.isFree.getD false }
  (Except.ok x, { st with contents := x :: st.contents, nextContentId := st.nextContentId + 1 })

/-- Input to course creation, per the Course.js columns used here: status is
optional and defaults to draft. -/
structure CourseInput where
title : String
price : Int
status : Option CourseStatus
teacherId : Nat
deriving DecidableEq, Repr

/-- Modelled from the spec: the Entity Store create operation for Course
(section 4.1); absent from the sources.  It enforces the declared foreign
key of Course.js — teacherId must reference an existing row of the users
table (the declaration constrains only existence). -/
def createCourse (st : Store) (inp : CourseInput) : Except SubError Course × Store :=
match findUser st inp.teacherId with
| none => (Except.error SubError.constraintViolation, st)
| some _ =>
  let c : Course :=
    { id := st.nextCourseId, title := inp.title, price := inp.price,
      status := inp.status.getD CourseStatus.draft, teacherId := inp.teacherId }
  (Except.ok c, { st with courses := c :: st.courses, nextCourseId := st.nextCourseId + 1 })

/-- Modelled from the spec: the Entity Store update of a Course's teacherId
(section 4.1); absent from the sources.  An unknown course id yields
NotFound; a dangling new teacherId yields ConstraintViolation. -/
def updateCourseTeacher (st : Store) (courseId newTeacherId : Nat) :
    Except SubError Course × Store :=
match findCourse st courseId with
| none => (Except.error SubError.notFound, st)
| some c =>
  match findUser st newTeacherId with
  | none => (Except.error SubError.constraintViolation, st)
  | some _ =>
    let c' : Course := { c with teacherId := newTeacherId }
    (Except.ok c', { st with courses := st.courses.map fun d => if d.id = c'.id then c' else d })

/-- Modelled from the spec: the Entity Store update of a CourseContent's
courseId (section 4.1); absent from the sources.  An unknown content id
yields NotFound; a dangling new courseId yields ConstraintViolation. -/
def updateContentCourse (st : Store) (contentId newCourseId : Nat) :
    Except SubError CourseContent × Store :=
match findContent st contentId with
| none => (Except.error SubError.notFound, st)
| some x =>
  match findCourse st newCourseId with
  | none => (Except.error SubError.constraintViolation, st)
  | some _ =>
    let x' : CourseContent := { x with courseId := newCourseId }
    (Except.ok x', { st with contents := st.contents.map fun y => if y.id = x'.id then x' else y })

/-- The composite unique index on (studentId, courseId) declared on the
subscriptions table: equal pairs force equal rows. -/
def subPairUnique (st : Store) : Prop :=
∀ s1 ∈ st.subs, ∀ s2 ∈ st.subs, s1.studentId = s2.studentId → s1.courseId = s2.courseId → s1 = s2

/-- The primary key of the subscriptions table: equal ids force equal rows. -/
def subIdUnique (st : Store) : Prop :=
∀ s1 ∈ st.subs, ∀ s2 ∈ st.subs, s1.id = s2.id → s1 = s2

/-- The min 0 / max 100 validation on Subscription.progress. -/
def progressInRange (st : Store) : Prop :=
∀ s ∈ st.subs, 0 ≤ s.progress ∧ s.progress ≤ 100

/-- The spec's completed invariant: completed is true only if progress is 100. -/
def completedOnlyAtFull (st : Store) : Prop :=
∀ s ∈ st.subs, s.completed = true → s.progress = 100

/-- The declared foreign key Course.teacherId into the users table. -/
def courseFKValid (st : Store) : Prop :=
∀ c ∈ st.courses, ∃ u ∈ st.users, u.id = c.teacherId

/-- The declared foreign key CourseContent.courseId into the courses table. -/
def contentFKValid (st : Store) : Prop :=
∀ x ∈ st.contents, ∃ c ∈ st.courses, c.id = x.courseId

/-- The declared foreign keys Subscription.studentId and
Subscription.courseId. -/
def subFKValid (st : Store) : Prop :=
∀ s ∈ st.subs, (∃ u ∈ st.users, u.id = s.studentId) ∧ ∃ c ∈ st.courses, c.id = s.courseId

/-- All constraints the source schema declares on the store, together with
the spec's completed invariant. -/
def storeWF (st : Store) : Prop :=
subPairUnique st ∧ subIdUnique st ∧ progressInRange st ∧ completedOnlyAtFull st ∧
  courseFKValid st ∧ contentFKValid st ∧ subFKValid st

/-- The property claimed for CourseContent.order: distinct content items of
the same course carry distinct order values. -/
def orderUniqueWithinCourse (st : Store) : Prop :=
∀ x ∈ st.contents, ∀ y ∈ st.contents, x.courseId = y.courseId → x ≠ y → x.order ≠ y.order

/-- One lifecycle event, used to speak about arbitrary interleavings of the
operations. -/
inductive Event where
| subscribeE (now : Nat) (newEnd : Option Nat) (studentId courseId : Nat)
| cancelE (subscriptionId : Nat)
| expireE (now : Nat) (subscriptionId : Nat)
| recordProgressE (subscriptionId : Nat) (newProgress : Int)
deriving DecidableEq, Repr

/-- The store after one lifecycle event. -/
def applyEvent (st : Store) : Event → Store
| Event.subscribeE now newEnd studentId courseId => (subscribe st now newEnd studentId courseId).2
| Event.cancelE subscriptionId => (cancel st subscriptionId).2
| Event.expireE now subscriptionId => (expire st now subscriptionId).2
| Event.recordProgressE subscriptionId newProgress => (recordProgress st subscriptionId newProgress).2

/-- The store after a sequence of lifecycle events. -/
def applyEvents (st : Store) (es : List Event) : Store :=
es.foldl applyEvent st

instance (st : Store) : Decidable (subPairUnique st) := by
unfold subPairUnique; infer_instance

instance (st : Store) : Decidable (subIdUnique st) := by
unfold subIdUnique; infer_instance

instance (st : Store) : Decidable (progressInRange st) := by
unfold progressInRange; infer_instance

instance (st : Store) : Decidable (completedOnlyAtFull st) := by
unfold completedOnlyAtFull; infer_instance

instance (st : Store) : Decidable (courseFKValid st) := by
unfold courseFKValid; infer_instance

instance (st : Store) : Decidable (contentFKValid st) := by
unfold contentFKValid; infer_instance

instance (st : Store) : Decidable (subFKValid st) := by
unfold subFKValid; infer_instance

instance (st : Store) : Decidable (storeWF st) := by
unfold storeWF; infer_instance

instance (st : Store) : Decidable (orderUniqueWithinCourse st) := by
unfold orderUniqueWithinCourse; infer_instance

/-- A small populated store used to instantiate the theorems: a teacher, two
students, an admin, a free published course, a draft course, a paid
published course, free and gated content, an active and a cancelled
subscription, and one successful payment. -/
def demoStore : Store :=
{ users :=
    [ { id := 1, role := Role.teacher }
    , { id := 2, role := Role.student }
    , { id := 3, role := Role.admin }
    , { id := 4, role := Role.student }
    , { id := 5, role := Role.student } ]
, courses :=
    [ { id := 10, title := "a", price := 0, status := CourseStatus.published, teacherId := 1 }
    , { id := 11, title := "b", price := 500, status := CourseStatus.draft, teacherId := 1 }
    , { id := 12, title := "c", price := 500, status := CourseStatus.published, teacherId := 1 } ]
, contents :=
    [ { id := 20, courseId := 10, title := "l1", type := ContentType.video,
        order := 0, isFree := false }
    , { id := 21, courseId := 10, title := "l2", type := ContentType.document,
        order := 1, isFree := true }
    , { id := 22, courseId := 11, title := "l3", type := ContentType.text,
        order := 0, isFree := true } ]
, subs :=
    [ { id := 30, studentId := 2, courseId := 10, status := SubStatus.active,
        startDate := 0, endDate := none, progress := 40, completed := false }
    , { id := 31, studentId := 4, courseId := 10, status := SubStatus.cancelled,
        startDate := 0, endDate := some 50, progress := 100, completed := true } ]
, payments := [ { id := 40, userId := 2, courseId := 12, success := true } ]
, nextSubId := 100
, nextContentId := 200
, nextCourseId := 300 }

/-- The active demo subscription row (student 2 on course 10). -/
def demoRow30 : Subscription :=
{ id := 30, studentId := 2, courseId := 10, status := SubStatus.active,
  startDate := 0, endDate := none, progress := 40, completed := false }

/-- The cancelled demo subscription row (student 4 on course 10). -/
def demoRow31 : Subscription :=
{ id := 31, studentId := 4, courseId := 10, status := SubStatus.cancelled,
  startDate := 0, endDate := some 50, progress := 100, completed := true }

/-- The legal status transitions of the spec's state machine: staying put,
active to expired (time-triggered), active to cancelled (explicit), and
expired or cancelled back to active (re-subscribe on the same row). -/
def legalTransition (a b : SubStatus) : Prop :=
a = b ∨ (a = SubStatus.active ∧ b = SubStatus.expired) ∨
  (a = SubStatus.active ∧ b = SubStatus.cancelled) ∨
  ((a = SubStatus.expired ∨ a = SubStatus.cancelled) ∧ b = SubStatus.active)

/-- A store whose two content rows of the same course share the order value
0 — each row individually satisfies every constraint the CourseContent
model declares (the declared default for order is 0 and no uniqueness
index covers it). -/
def cexStoreOrder : Store :=
{ users := [ { id := 1, role := Role.teacher } ]
, courses := [ { id := 10, title := "a", price := 0, status := CourseStatus.published,
                 teacherId := 1 } ]
, contents :=
    [ { id := 20, courseId := 10, title := "l1", type := ContentType.video,
        order := 0, isFree := false }
    , { id := 21, courseId := 10, title := "l2", type := ContentType.text,
        order := 0, isFree := false } ]
, subs := []
, payments := []
, nextSubId := 100
, nextContentId := 200
, nextCourseId := 300 }

/-- A store holding a single student-role user, used to show that course
creation accepts a teacherId resolving to a non-teacher. -/
def cexStoreRole : Store :=
{ users := [ { id := 2, role := Role.student } ]
, courses := []
, contents := []
, subs := []
, payments := []
, nextSubId := 100
, nextContentId := 200
, nextCourseId := 300 }

/-- The updated row after the demo full-progress update used by the C6
witness. -/
def demoRow30Full : Subscription :=
{ id := 30, studentId := 2, courseId := 10, status := SubStatus.active,
  startDate := 0, endDate := none, progress := 100, completed := true }

/-- A row returned by the pair lookup is a member carrying that pair. -/
lemma findSubByPair_mem {st : Store} {a b : Nat} {s : Subscription}
    (h : findSubByPair st a b = some s) :
    s ∈ st.subs ∧ s.studentId = a ∧ s.courseId = b := by
refine ⟨List.mem_of_find?_eq_some h, ?_, ?_⟩ <;>
  · have hp := List.find?_some h
    simp only [Bool.and_eq_true, beq_iff_eq] at hp
    simp [hp.1, hp.2]

/-- When the pair lookup misses, no row carries that pair. -/
lemma findSubByPair_none {st : Store} {a b : Nat}
    (h : findSubByPair st a b = none) :
    ∀ s ∈ st.subs, ¬(s.studentId = a ∧ s.courseId = b) := by
unfold findSubByPair at h
rw [List.find?_eq_none] at h
intro s hs hc
have hcontra := h s hs
simp [hc.1, hc.2] at hcontra

/-- A row returned by the id lookup is a member carrying that id. -/
lemma findSubById_mem {st : Store} {i : Nat} {s : Subscription}
    (h : findSubById st i = some s) :
    s ∈ st.subs ∧ s.id = i := by
refine ⟨List.mem_of_find?_eq_some h, ?_⟩
have hp := List.find?_some h
simpa using hp

/-- Replacing a row by one with the same id and the same (studentId,
courseId) pair preserves pair uniqueness. -/
lemma subPairUnique_replaceSub {st : Store} {s' : Subscription}
    (h : subPairUnique st)
    (hex : ∃ s0 ∈ st.subs, s0.id = s'.id ∧ s0.studentId = s'.studentId ∧
      s0.courseId = s'.courseId) :
    subPairUnique (replaceSub st s') := by
obtain ⟨s0, hs0m, hid0, hsid, hcid⟩ := hex
intro u1 hu1 u2 hu2 hst hco
unfold replaceSub at hu1 hu2
simp only [List.mem_map] at hu1 hu2
obtain ⟨t1, ht1, e1⟩ := hu1
obtain ⟨t2, ht2, e2⟩ := hu2
subst e1
subst e2
by_cases c1 : t1.id = s'.id <;> by_cases c2 : t2.id = s'.id
· rw [if_pos c1, if_pos c2]
· rw [if_pos c1, if_neg c2] at hst hco ⊢
  have h02 : s0 = t2 := h s0 hs0m t2 ht2 (hsid.trans hst) (hcid.trans hco)
  exact absurd (h02 ▸ hid0) c2
· rw [if_neg c1, if_pos c2] at hst hco ⊢
  have h01 : s0 = t1 := h s0 hs0m t1 ht1 (hsid.trans hst.symm) (hcid.trans hco.symm)
  exact absurd (h01 ▸ hid0) c1
· rw [if_neg c1, if_neg c2] at hst hco ⊢
  exact h t1 ht1 t2 ht2 hst hco

/-- `subscribe` preserves pair uniqueness: an existing row is updated in
place and a row is inserted only when the pair lookup missed. -/
lemma subPairUnique_subscribe (st : Store) (now : Nat) (newEnd : Option Nat)
    (a b : Nat) (h : subPairUnique st) :
    subPairUnique (subscribe st now newEnd a b).2 := by
unfold subscribe
cases hu : findUser st a with
| none => exact h
| some u =>
cases hc : findCourse st b with
| none => exact h
| some c =>
by_cases hr : u.role = Role.student
· by_cases hp : c.status = CourseStatus.published
  · cases hs : findSubByPair st a b with
    | some s =>
      by_cases ha : s.status = SubStatus.active
      · simpa [hr, hp, ha] using h
      · by_cases hpay : 0 < c.price ∧ hasSuccessfulPayment st a b = false
        · simpa [hr, hp, ha, hpay] using h
        · simp [hr, hp, ha, hpay]
          apply subPairUnique_replaceSub h
          obtain ⟨hm, h1, h2⟩ := findSubByPair_mem hs
          exact ⟨s, hm, rfl, rfl, rfl⟩
    | none =>
      by_cases hpay : 0 < c.price ∧ hasSuccessfulPayment st a b = false
      · simpa [hr, hp, hpay] using h
      · simp [hr, hp, hpay]
        intro u1 hu1 u2 hu2 hst hco
        have hnone := findSubByPair_none hs
        rcases List.mem_cons.mp hu1 with rfl | hm1 <;>
          rcases List.mem_cons.mp hu2 with rfl | hm2
        · rfl
        · exact absurd ⟨hst.symm, hco.symm⟩ (hnone u2 hm2)
        · exact absurd ⟨hst, hco⟩ (hnone u1 hm1)
        · exact h u1 hm1 u2 hm2 hst hco
  · simpa [hr, hp] using h
· simpa [hr] using h

/-- `cancel` preserves pair uniqueness: it only rewrites a row in place. -/
lemma subPairUnique_cancel (st : Store) (i : Nat) (h : subPairUnique st) :
    subPairUnique (cancel st i).2 := by
unfold cancel
cases hs : findSubById st i with
| none => exact h
| some s =>
by_cases ha : s.status = SubStatus.active
· simp [ha]
  exact subPairUnique_replaceSub h ⟨s, (findSubById_mem hs).1, rfl, rfl, rfl⟩
· simpa [ha] using h

/-- `expire` preserves pair uniqueness: it only rewrites a row in place. -/
lemma subPairUnique_expire (st : Store) (now i : Nat) (h : subPairUnique st) :
    subPairUnique (expire st now i).2 := by
unfold expire
cases hs : findSubById st i with
| none => exact h
| some s =>
by_cases ha : s.status = SubStatus.active ∧ endDatePassed s now = true
· simp [ha]
  exact subPairUnique_replaceSub h ⟨s, (findSubById_mem hs).1, rfl, rfl, rfl⟩
· simpa [ha] using h

/-- `recordProgress` preserves pair uniqueness: it only rewrites a row in
place. -/
lemma subPairUnique_recordProgress (st : Store) (i : Nat) (p : Int)
    (h : subPairUnique st) : subPairUnique (recordProgress st i p).2 := by
unfold recordProgress
by_cases hp : p < 0 ∨ 100 < p
· simpa [hp] using h
· simp only [hp, if_false, ite_false]
  cases hs : findSubById st i with
  | none => exact h
  | some s =>
  by_cases ha : s.status = SubStatus.active
  · simp [hp, ha]
    exact subPairUnique_replaceSub h ⟨s, (findSubById_mem hs).1, rfl, rfl, rfl⟩
  · simpa [hp, ha] using h

/-- Every lifecycle event preserves pair uniqueness. -/
lemma subPairUnique_applyEvent (st : Store) (e : Event) (h : subPairUnique st) :
    subPairUnique (applyEvent st e) := by
cases e with
| subscribeE now newEnd a b => exact subPairUnique_subscribe st now newEnd a b h
| cancelE i => exact subPairUnique_cancel st i h
| expireE now i => exact subPairUnique_expire st now i h
| recordProgressE i p => exact subPairUnique_recordProgress st i p h

/-- C1: for every student and course, at all times at most one Subscription
row exists for the pair: the composite unique index holds initially and is
preserved by every interleaving of subscribe, cancel, expire and
recordProgress — re-subscription updates the existing row in place rather
than inserting a second one. -/
theorem subscription_pair_unique_invariant (st : Store) (es : List Event)
    (h : subPairUnique st) : subPairUnique (applyEvents st es) := by
induction es generalizing st with
| nil => exact h
| cons e es ih =>
  simp only [applyEvents, List.foldl_cons]
  exact ih (applyEvent st e) (subPairUnique_applyEvent st e h)

/-- Witness for C1: the invariant holds concretely after a re-subscription,
a cancellation and a fresh subscription on the demo store. -/
theorem subscription_pair_unique_invariant_witness :
    subPairUnique (applyEvents demoStore
      [Event.subscribeE 60 none 4 10, Event.cancelE 30, Event.subscribeE 61 (some 99) 2 12]) :=
subscription_pair_unique_invariant demoStore _ (by decide)

/-- Inversion for a successful `recordProgress`: the row was found, it was
active, the value was in range, and the row was rewritten in place with
the new progress and the recomputed completed flag. -/
lemma recordProgress_ok {st : Store} {i : Nat} {p : Int} {s' : Subscription} {st2 : Store}
    (h : recordProgress st i p = (Except.ok s', st2)) :
    ∃ s, findSubById st i = some s ∧ s.status = SubStatus.active ∧ 0 ≤ p ∧ p ≤ 100 ∧
      s' = { s with progress := p, completed := p == 100 } ∧ st2 = replaceSub st s' := by
unfold recordProgress at h
by_cases hp : p < 0 ∨ 100 < p
· simp [hp] at h
· rw [if_neg hp] at h
  push_neg at hp
  cases hs : findSubById st i with
  | none => rw [hs] at h; simp at h
  | some s =>
    rw [hs] at h
    dsimp only at h
    by_cases ha : s.status = SubStatus.active
    · rw [if_pos ha] at h
      simp only [Prod.mk.injEq, Except.ok.injEq] at h
      exact ⟨s, rfl, ha, hp.1, hp.2, h.1.symm, by rw [← h.2, h.1]⟩
    · rw [if_neg ha] at h
      simp at h

/-- Replacing a row whose completed flag is honest preserves the
completed-only-at-100 invariant. -/
lemma completedOnlyAtFull_replaceSub {st : Store} {s' : Subscription}
    (h : completedOnlyAtFull st) (hs' : s'.completed = true → s'.progress = 100) :
    completedOnlyAtFull (replaceSub st s') := by
intro u hu hc
unfold replaceSub at hu
simp only [List.mem_map] at hu
obtain ⟨t, ht, e⟩ := hu
subst e
by_cases c : t.id = s'.id
· rw [if_pos c] at hc ⊢
  exact hs' hc
· rw [if_neg c] at hc ⊢
  exact h t ht hc

/-- `subscribe` preserves the completed-only-at-100 invariant: any row it
writes carries completed = false. -/
lemma completedOnlyAtFull_subscribe (st : Store) (now : Nat) (newEnd : Option Nat)
    (a b : Nat) (h : completedOnlyAtFull st) :
    completedOnlyAtFull (subscribe st now newEnd a b).2 := by
unfold subscribe
cases hu : findUser st a with
| none => exact h
| some u =>
cases hc : findCourse st b with
| none => exact h
| some c =>
by_cases hr : u.role = Role.student
· by_cases hp : c.status = CourseStatus.published
  · cases hs : findSubByPair st a b with
    | some s =>
      by_cases ha : s.status = SubStatus.active
      · simpa [hr, hp, ha] using h
      · by_cases hpay : 0 < c.price ∧ hasSuccessfulPayment st a b = false
        · simpa [hr, hp, ha, hpay] using h
        · simp [hr, hp, ha, hpay]
          exact completedOnlyAtFull_replaceSub h (by intro hcon; simp [resubscribedRow] at hcon)
    | none =>
      by_cases hpay : 0 < c.price ∧ hasSuccessfulPayment st a b = false
      · simpa [hr, hp, hpay] using h
      · simp [hr, hp, hpay]
        intro u1 hu1 hc1
        rcases List.mem_cons.mp hu1 with rfl | hm1
        · simp [freshSubRow] at hc1
        · exact h u1 hm1 hc1
  · simpa [hr, hp] using h
· simpa [hr] using h

/-- `cancel` preserves the completed-only-at-100 invariant: it does not
touch progress or completed. -/
lemma completedOnlyAtFull_cancel (st : Store) (i : Nat) (h : completedOnlyAtFull st) :
    completedOnlyAtFull (cancel st i).2 := by
unfold cancel
cases hs : findSubById st i with
| none => exact h
| some s =>
by_cases ha : s.status = SubStatus.active
· simp [ha]
  exact completedOnlyAtFull_replaceSub h (h s (findSubById_mem hs).1)
· simpa [ha] using h

/-- `expire` preserves the completed-only-at-100 invariant: it does not
touch progress or completed. -/
lemma completedOnlyAtFull_expire (st : Store) (now i : Nat) (h : completedOnlyAtFull st) :
    completedOnlyAtFull (expire st now i).2 := by
unfold expire
cases hs : findSubById st i with
| none => exact h
| some s =>
by_cases ha : s.status = SubStatus.active ∧ endDatePassed s now = true
· simp [ha]
  exact completedOnlyAtFull_replaceSub h (h s (findSubById_mem hs).1)
· simpa [ha] using h

/-- `recordProgress` preserves the completed-only-at-100 invariant: the
rewritten row has completed = true exactly when the new progress is 100. -/
lemma completedOnlyAtFull_recordProgress (st : Store) (i : Nat) (p : Int)
    (h : completedOnlyAtFull st) : completedOnlyAtFull (recordProgress st i p).2 := by
unfold recordProgress
by_cases hp : p < 0 ∨ 100 < p
· simpa [hp] using h
· simp only [hp, if_false, ite_false]
  cases hs : findSubById st i with
  | none => exact h
  | some s =>
  by_cases ha : s.status = SubStatus.active
  · simp [hp, ha]
    refine completedOnlyAtFull_replaceSub h ?_
    intro hcon
    simpa using (beq_iff_eq.mp (by simpa using hcon))
  · simpa [hp, ha] using h

/-- Every lifecycle event preserves the completed-only-at-100 invariant. -/
lemma completedOnlyAtFull_applyEvent (st : Store) (e : Event)
    (h : completedOnlyAtFull st) : completedOnlyAtFull (applyEvent st e) := by
cases e with
| subscribeE now newEnd a b => exact completedOnlyAtFull_subscribe st now newEnd a b h
| cancelE i => exact completedOnlyAtFull_cancel st i h
| expireE now i => exact completedOnlyAtFull_expire st now i h
| recordProgressE i p => exact completedOnlyAtFull_recordProgress st i p h

/-- C5: recordProgress rejects values outside 0..100 with InvalidProgress,
rejects in-range updates on a non-active subscription with
SubscriptionNotActive, leaves the store unchanged on every failure, and
succeeds exactly when the subscription is active and the value is in
range. -/
theorem recordProgress_error_handling :
    (∀ (st : Store) (i : Nat) (p : Int), (p < 0 ∨ 100 < p) →
      recordProgress st i p = (Except.error SubError.invalidProgress, st)) ∧
    (∀ (st : Store) (i : Nat) (p : Int) (s : Subscription), ¬(p < 0 ∨ 100 < p) →
      findSubById st i = some s → s.status ≠ SubStatus.active →
      recordProgress st i p = (Except.error SubError.subscriptionNotActive, st)) ∧
    (∀ (st : Store) (i : Nat) (p : Int) (e : SubError),
      (recordProgress st i p).1 = Except.error e → (recordProgress st i p).2 = st) ∧
    (∀ (st : Store) (i : Nat) (p : Int) (s : Subscription), findSubById st i = some s →
      ((∃ s', (recordProgress st i p).1 = Except.ok s') ↔
        (s.status = SubStatus.active ∧ 0 ≤ p ∧ p ≤ 100))) := by
refine ⟨?_, ?_, ?_, ?_⟩
· intro st i p hp
  unfold recordProgress
  rw [if_pos hp]
· intro st i p s hp hs hna
  unfold recordProgress
  rw [if_neg hp, hs]
  dsimp only
  rw [if_neg hna]
· intro st i p e h
  unfold recordProgress at h ⊢
  by_cases hp : p < 0 ∨ 100 < p
  · rw [if_pos hp]
  · rw [if_neg hp] at h ⊢
    cases hs : findSubById st i with
    | none => rfl
    | some s =>
      rw [hs] at h
      dsimp only at h ⊢
      by_cases ha : s.status = SubStatus.active
      · rw [if_pos ha] at h
        exact absurd h (by simp)
      · rw [if_neg ha]
· intro st i p s hs
  constructor
  · rintro ⟨s', hok⟩
    have hpair : recordProgress st i p = (Except.ok s', (recordProgress st i p).2) := by
      rw [← hok]
    obtain ⟨s0, hs0, ha0, h0, h100, _, _⟩ := recordProgress_ok hpair
    rw [hs] at hs0
    obtain rfl : s = s0 := Option.some.inj hs0
    exact ⟨ha0, h0, h100⟩
  · rintro ⟨ha, h0, h100⟩
    unfold recordProgress
    rw [if_neg (by omega : ¬(p < 0 ∨ 100 < p)), hs]
    dsimp only
    rw [if_pos ha]
    exact ⟨_, rfl⟩

/-- Witness for C5 on the demo store: an out-of-range value is rejected
with InvalidProgress; an in-range value on the cancelled subscription is
rejected with SubscriptionNotActive; both failures leave the store
unchanged; the active subscription accepts an in-range value. -/
theorem recordProgress_error_handling_witness :
    recordProgress demoStore 30 101 = (Except.error SubError.invalidProgress, demoStore) ∧
    recordProgress demoStore 31 50 = (Except.error SubError.subscriptionNotActive, demoStore) ∧
    (recordProgress demoStore 31 50).2 = demoStore ∧
    ((∃ s', (recordProgress demoStore 30 55).1 = Except.ok s') ↔
      (SubStatus.active = SubStatus.active ∧ (0 : Int) ≤ 55 ∧ (55 : Int) ≤ 100)) :=
⟨recordProgress_error_handling.1 demoStore 30 101 (by decide),
 recordProgress_error_handling.2.1 demoStore 31 50
   { id := 31, studentId := 4, courseId := 10, status := SubStatus.cancelled,
     startDate := 0, endDate := some 50, progress := 100, completed := true }
   (by decide) (by decide) (by decide),
 recordProgress_error_handling.2.2.1 demoStore 31 50 SubError.subscriptionNotActive (by decide),
 recordProgress_error_handling.2.2.2 demoStore 30 55
   { id := 30, studentId := 2, courseId := 10, status := SubStatus.active,
     startDate := 0, endDate := none, progress := 40, completed := false }
   (by decide)⟩

/-- C6: after every successful recordProgress the completed flag is true
exactly when the new progress is 100 (and the stored progress is the new
value), and the completed-only-at-100 invariant holds at all times: it is
preserved by every interleaving of the lifecycle operations. -/
theorem recordProgress_completed_exactly_at_100 :
    (∀ (st : Store) (i : Nat) (p : Int) (s' : Subscription) (st2 : Store),
      recordProgress st i p = (Except.ok s', st2) →
        (s'.completed = true ↔ p = 100) ∧ s'.progress = p) ∧
    (∀ (st : Store) (es : List Event), completedOnlyAtFull st →
      completedOnlyAtFull (applyEvents st es)) := by
constructor
· intro st i p s' st2 h
  obtain ⟨s, _, _, _, _, hs', _⟩ := recordProgress_ok h
  subst hs'
  exact ⟨by simp, rfl⟩
· intro st es h
  induction es generalizing st with
  | nil => exact h
  | cons e es ih =>
    simp only [applyEvents, List.foldl_cons]
    exact ih (applyEvent st e) (completedOnlyAtFull_applyEvent st e h)

/-- Witness for C6: recording progress 100 on the demo store's active
subscription sets completed, and the invariant survives a concrete event
sequence. -/
theorem recordProgress_completed_exactly_at_100_witness :
    ((demoRow30Full.completed = true ↔ (100 : Int) = 100) ∧ demoRow30Full.progress = 100) ∧
    completedOnlyAtFull (applyEvents demoStore
      [Event.recordProgressE 30 100, Event.cancelE 30, Event.subscribeE 5 none 2 10]) :=
⟨recordProgress_completed_exactly_at_100.1 demoStore 30 100 demoRow30Full
   (replaceSub demoStore demoRow30Full) (by decide),
 recordProgress_completed_exactly_at_100.2 demoStore _ (by decide)⟩

/-- C2: canAccess applies its rules in order — owner teacher (regardless of
publish status), then admin, then free content on a published course, then
the subscription lookup, allowing with SubscriptionActive exactly when an
active subscription row exists for the pair and denying with
NoActiveSubscription otherwise; in particular free content of a published
course is allowed for every resolved user. -/
theorem canAccess_rule_order (st : Store) (uid xid : Nat) (u : User) (x : CourseContent)
    (c : Course) (hwf : subPairUnique st)
    (hu : findUser st uid = some u) (hx : findContent st xid = some x)
    (hc : findCourse st x.courseId = some c) :
    (c.teacherId = uid → canAccess st uid xid = Except.ok ⟨true, AccessReason.ownerTeacher⟩) ∧
    (c.teacherId ≠ uid → u.role = Role.admin →
      canAccess st uid xid = Except.ok ⟨true, AccessReason.adminRole⟩) ∧
    (c.teacherId ≠ uid → u.role ≠ Role.admin → x.isFree = true →
      c.status = CourseStatus.published →
      canAccess st uid xid = Except.ok ⟨true, AccessReason.freePreview⟩) ∧
    (c.teacherId ≠ uid → u.role ≠ Role.admin →
      ¬(x.isFree = true ∧ c.status = CourseStatus.published) →
      (((∃ s ∈ st.subs, s.studentId = uid ∧ s.courseId = x.courseId ∧
            s.status = SubStatus.active) →
          canAccess st uid xid = Except.ok ⟨true, AccessReason.subscriptionActive⟩) ∧
        (¬(∃ s ∈ st.subs, s.studentId = uid ∧ s.courseId = x.courseId ∧
            s.status = SubStatus.active) →
          canAccess st uid xid = Except.ok ⟨false, AccessReason.noActiveSubscription⟩))) ∧
    (x.isFree = true → c.status = CourseStatus.published →
      ∃ d, canAccess st uid xid = Except.ok d ∧ d.allowed = true) := by
have hacc : canAccess st uid xid =
    (if c.teacherId = uid then Except.ok ⟨true, AccessReason.ownerTeacher⟩
     else if u.role = Role.admin then Except.ok ⟨true, AccessReason.adminRole⟩
     else if x.isFree = true ∧ c.status = CourseStatus.published then
       Except.ok ⟨true, AccessReason.freePreview⟩
     else
       match findSubByPair st uid x.courseId with
       | some s =>
         if s.status = SubStatus.active then Except.ok ⟨true, AccessReason.subscriptionActive⟩
         else Except.ok ⟨false, AccessReason.noActiveSubscription⟩
       | none => Except.ok ⟨false, AccessReason.noActiveSubscription⟩) := by
  unfold canAccess
  rw [hu, hx]
  dsimp only
  rw [hc]
refine ⟨?_, ?_, ?_, ?_, ?_⟩
· intro ht
  rw [hacc, if_pos ht]
· intro ht ha
  rw [hacc, if_neg ht, if_pos ha]
· intro ht ha hf hp
  rw [hacc, if_neg ht, if_neg ha, if_pos ⟨hf, hp⟩]
· intro ht ha hfp
  rw [hacc, if_neg ht, if_neg ha, if_neg hfp]
  cases hs : findSubByPair st uid x.courseId with
  | some s =>
    obtain ⟨hm, hsid, hcid⟩ := findSubByPair_mem hs
    constructor
    · rintro ⟨s2, hm2, hsid2, hcid2, hact2⟩
      have hss : s2 = s := hwf s2 hm2 s hm (by rw [hsid2, hsid]) (by rw [hcid2, hcid])
      dsimp only
      rw [if_pos (hss ▸ hact2)]
    · intro hnex
      by_cases hact : s.status = SubStatus.active
      · exact absurd ⟨s, hm, hsid, hcid, hact⟩ hnex
      · dsimp only
        rw [if_neg hact]
  | none =>
    have hnone := findSubByPair_none hs
    constructor
    · rintro ⟨s2, hm2, hsid2, hcid2, _⟩
      exact absurd ⟨hsid2, hcid2⟩ (hnone s2 hm2)
    · intro _
      rfl
· intro hf hp
  by_cases ht : c.teacherId = uid
  · exact ⟨_, by rw [hacc, if_pos ht], rfl⟩
  · by_cases ha : u.role = Role.admin
    · exact ⟨_, by rw [hacc, if_neg ht, if_pos ha], rfl⟩
    · exact ⟨_, by rw [hacc, if_neg ht, if_neg ha, if_pos ⟨hf, hp⟩], rfl⟩

/-- Witness for C2 on the demo store: the free lesson of the published
course is allowed for the student with no subscription to it, and the
gated lesson is denied to that student with NoActiveSubscription. -/
theorem canAccess_rule_order_witness :
    canAccess demoStore 4 21 = Except.ok ⟨true, AccessReason.freePreview⟩ ∧
    canAccess demoStore 4 20 = Except.ok ⟨false, AccessReason.noActiveSubscription⟩ := by
constructor
· exact (canAccess_rule_order demoStore 4 21 ⟨4, Role.student⟩
    ⟨21, 10, "l2", ContentType.document, 1, true⟩
    ⟨10, "a", 0, CourseStatus.published, 1⟩
    (by decide) (by decide) (by decide) (by decide)).2.2.1
    (by decide) (by decide) (by decide) (by decide)
· exact ((canAccess_rule_order demoStore 4 20 ⟨4, Role.student⟩
    ⟨20, 10, "l1", ContentType.video, 0, false⟩
    ⟨10, "a", 0, CourseStatus.published, 1⟩
    (by decide) (by decide) (by decide) (by decide)).2.2.2.1
    (by decide) (by decide) (by decide)).2 (by decide)

/-- C3: subscribe is idempotent on an active row — it returns the existing
row with the store untouched — and two successive calls on a free course
with no prior row yield the same subscription id with no Payment involved:
the second call returns exactly the row the first one created, again with
the store untouched. -/
theorem subscribe_idempotent_on_active (st : Store) (now now2 : Nat)
    (ne ne2 : Option Nat) (a b : Nat) (u : User) (c : Course)
    (hu : findUser st a = some u) (hr : u.role = Role.student)
    (hc : findCourse st b = some c) (hp : c.status = CourseStatus.published) :
    (∀ s, findSubByPair st a b = some s → s.status = SubStatus.active →
      subscribe st now ne a b = (Except.ok s, st)) ∧
    (c.price = 0 → findSubByPair st a b = none →
      ∃ s1 st1, subscribe st now ne a b = (Except.ok s1, st1) ∧
        subscribe st1 now2 ne2 a b = (Except.ok s1, st1)) := by
constructor
· intro s hs hact
  unfold subscribe
  rw [hu, hc]
  dsimp only
  rw [if_pos hr, if_pos hp, hs]
  dsimp only
  rw [if_pos hact]
· intro hfree hnone
  have hpay : ¬(0 < c.price ∧ hasSuccessfulPayment st a b = false) := by
    rintro ⟨h1, _⟩
    rw [hfree] at h1
    omega
  refine ⟨freshSubRow st now ne a b, insertSub st (freshSubRow st now ne a b), ?_, ?_⟩
  · unfold subscribe
    rw [hu, hc]
    dsimp only
    rw [if_pos hr, if_pos hp, hnone]
    dsimp only
    rw [if_neg hpay]
  · unfold subscribe
    rw [show findUser (insertSub st (freshSubRow st now ne a b)) a = some u from hu]
    rw [show findCourse (insertSub st (freshSubRow st now ne a b)) b = some c from hc]
    dsimp only
    rw [if_pos hr, if_pos hp]
    rw [show findSubByPair (insertSub st (freshSubRow st now ne a b)) a b =
          some (freshSubRow st now ne a b) from
        List.find?_cons_of_pos _ (by simp [freshSubRow])]
    dsimp only
    rw [if_pos (show (freshSubRow st now ne a b).status = SubStatus.active from rfl)]

/-- Witness for C3: the student with the active demo subscription gets the
same row back with the store untouched, and a fresh student double
subscribing to the free course gets the same id twice. -/
theorem subscribe_idempotent_on_active_witness :
    subscribe demoStore 70 none 2 10 = (Except.ok demoRow30, demoStore) ∧
    ∃ s1 st1, subscribe demoStore 70 none 5 10 = (Except.ok s1, st1) ∧
      subscribe st1 71 none 5 10 = (Except.ok s1, st1) :=
⟨(subscribe_idempotent_on_active demoStore 70 71 none none 2 10 ⟨2, Role.student⟩
    ⟨10, "a", 0, CourseStatus.published, 1⟩
    (by decide) (by decide) (by decide) (by decide)).1
    demoRow30 (by decide) (by decide),
 (subscribe_idempotent_on_active demoStore 70 71 none none 5 10 ⟨5, Role.student⟩
    ⟨10, "a", 0, CourseStatus.published, 1⟩
    (by decide) (by decide) (by decide) (by decide)).2
    (by decide) (by decide)⟩

/-- C4: re-subscribing over a cancelled or expired row updates that same
row — same id, status active, startDate now, endDate recomputed, progress
0 — and inserts no new row: the row count is unchanged and every other row
survives untouched. -/
theorem subscribe_resubscribe_updates_row (st : Store) (now : Nat) (ne : Option Nat)
    (a b : Nat) (u : User) (c : Course) (s : Subscription)
    (hu : findUser st a = some u) (hr : u.role = Role.student)
    (hc : findCourse st b = some c) (hp : c.status = CourseStatus.published)
    (hs : findSubByPair st a b = some s)
    (hst : s.status = SubStatus.cancelled ∨ s.status = SubStatus.expired)
    (hpay : c.price = 0 ∨ hasSuccessfulPayment st a b = true) :
    ∃ s' st', subscribe st now ne a b = (Except.ok s', st') ∧
      s'.id = s.id ∧ s'.status = SubStatus.active ∧ s'.startDate = now ∧
      s'.endDate = ne ∧ s'.progress = 0 ∧ s'.completed = false ∧
      st'.subs.length = st.subs.length ∧ s' ∈ st'.subs ∧
      (∀ t ∈ st.subs, t.id ≠ s.id → t ∈ st'.subs) := by
have hact : s.status ≠ SubStatus.active := by
  rcases hst with h | h <;> rw [h] <;> intro hcon <;> cases hcon
have hpc : ¬(0 < c.price ∧ hasSuccessfulPayment st a b = false) := by
  rintro ⟨h1, h2⟩
  rcases hpay with h | h
  · rw [h] at h1; omega
  · rw [h] at h2; cases h2
refine ⟨resubscribedRow s now ne, replaceSub st (resubscribedRow s now ne),
  ?_, rfl, rfl, rfl, rfl, rfl, rfl, ?_, ?_, ?_⟩
· unfold subscribe
  rw [hu, hc]
  dsimp only
  rw [if_pos hr, if_pos hp, hs]
  dsimp only
  rw [if_neg hact, if_neg hpc]
· exact List.length_map _ _
· have hm := (findSubByPair_mem hs).1
  have hmem := List.mem_map_of_mem
    (fun t => if t.id = (resubscribedRow s now ne).id then resubscribedRow s now ne else t) hm
  dsimp only at hmem
  rw [if_pos (show s.id = (resubscribedRow s now ne).id from rfl)] at hmem
  exact hmem
· intro t ht hne
  have hmem := List.mem_map_of_mem
    (fun t => if t.id = (resubscribedRow s now ne).id then resubscribedRow s now ne else t) ht
  dsimp only at hmem
  rw [if_neg (show ¬t.id = (resubscribedRow s now ne).id from hne)] at hmem
  exact hmem

/-- Witness for C4: the cancelled demo subscription (student 4, course 10)
is reactivated in place by a new subscribe call. -/
theorem subscribe_resubscribe_updates_row_witness :
    ∃ s' st', subscribe demoStore 80 (some 200) 4 10 = (Except.ok s', st') ∧
      s'.id = 31 ∧ s'.status = SubStatus.active ∧ s'.startDate = 80 ∧
      s'.endDate = some 200 ∧ s'.progress = 0 ∧ s'.completed = false ∧
      st'.subs.length = demoStore.subs.length ∧ s' ∈ st'.subs ∧
      (∀ t ∈ demoStore.subs, t.id ≠ 31 → t ∈ st'.subs) :=
subscribe_resubscribe_updates_row demoStore 80 (some 200) 4 10 ⟨4, Role.student⟩
  ⟨10, "a", 0, CourseStatus.published, 1⟩ demoRow31
  (by decide) (by decide) (by decide) (by decide) (by decide)
  (Or.inl (by decide)) (Or.inl (by decide))

/-- Any status may legally move to active (either it already is active, or
it is expired or cancelled and re-subscription is legal). -/
lemma legalTransition_to_active (a : SubStatus) : legalTransition a SubStatus.active := by
cases a with
| active => exact Or.inl rfl
| expired => exact Or.inr (Or.inr (Or.inr ⟨Or.inl rfl, rfl⟩))
| cancelled => exact Or.inr (Or.inr (Or.inr ⟨Or.inr rfl, rfl⟩))

/-- With a unique primary key, a row found again in an untouched list has
the same status (the stay-put transition). -/
lemma legalTransition_unchanged {st : Store} (hwf : subIdUnique st) :
    ∀ s ∈ st.subs, ∀ s' ∈ st.subs, s'.id = s.id → legalTransition s.status s'.status := by
intro s hs s' hs' hid
rw [hwf s' hs' s hs hid]
exact Or.inl rfl

/-- Rewriting one row in place only produces the transition of that row;
all other rows stay put. -/
lemma legalTransition_replaceSub {st : Store} {s0 r : Subscription}
    (hwf : subIdUnique st) (h0 : s0 ∈ st.subs) (hid : r.id = s0.id)
    (hleg : legalTransition s0.status r.status) :
    ∀ s ∈ st.subs, ∀ s' ∈ (replaceSub st r).subs, s'.id = s.id →
      legalTransition s.status s'.status := by
intro s hs s' hs' hid'
unfold replaceSub at hs'
simp only [List.mem_map] at hs'
obtain ⟨t, ht, e⟩ := hs'
subst e
by_cases c : t.id = r.id
· rw [if_pos c] at hid' ⊢
  have hss0 : s = s0 := hwf s hs s0 h0 (by rw [← hid', hid])
  rw [hss0]
  exact hleg
· rw [if_neg c] at hid' ⊢
  have hst : s = t := hwf s hs t ht hid'.symm
  rw [hst]
  exact Or.inl rfl

/-- `subscribe` moves statuses only along legal transitions: rows it
touches become active, which is always legal. -/
lemma legalTransition_subscribe (st : Store) (now : Nat) (newEnd : Option Nat)
    (a b : Nat) (hwf : subIdUnique st) :
    ∀ s ∈ st.subs, ∀ s' ∈ (subscribe st now newEnd a b).2.subs, s'.id = s.id →
      legalTransition s.status s'.status := by
unfold subscribe
cases hu : findUser st a with
| none => exact legalTransition_unchanged hwf
| some u =>
cases hc : findCourse st b with
| none => exact legalTransition_unchanged hwf
| some c =>
by_cases hr : u.role = Role.student
· by_cases hp : c.status = CourseStatus.published
  · cases hsub : findSubByPair st a b with
    | some s0 =>
      by_cases ha : s0.status = SubStatus.active
      · simp only [hr, hp, ha, if_true, ite_true]
        exact legalTransition_unchanged hwf
      · by_cases hpay : 0 < c.price ∧ hasSuccessfulPayment st a b = false
        · simp only [hr, hp, ha, hpay, if_true, if_false, ite_true, ite_false]
          exact legalTransition_unchanged hwf
        · simp only [hr, hp, ha, hpay, if_true, if_false, ite_true, ite_false]
          exact legalTransition_replaceSub hwf (findSubByPair_mem hsub).1 rfl
            (legalTransition_to_active s0.status)
    | none =>
      by_cases hpay : 0 < c.price ∧ hasSuccessfulPayment st a b = false
      · simp only [hr, hp, hpay, if_true, if_false, ite_true, ite_false]
        exact legalTransition_unchanged hwf
      · simp only [hr, hp, hpay, if_true, if_false, ite_true, ite_false]
        intro s hs s' hs' hid
        rcases List.mem_cons.mp hs' with rfl | hm
        · exact legalTransition_to_active s.status
        · exact legalTransition_unchanged hwf s hs s' hm hid
  · simp only [hr, hp, if_true, if_false, ite_true, ite_false]
    exact legalTransition_unchanged hwf
· simp only [hr, if_false, ite_false]
  exact legalTransition_unchanged hwf

/-- `cancel` moves statuses only along legal transitions: it cancels only
an active row. -/
lemma legalTransition_cancel (st : Store) (i : Nat) (hwf : subIdUnique st) :
    ∀ s ∈ st.subs, ∀ s' ∈ (cancel st i).2.subs, s'.id = s.id →
      legalTransition s.status s'.status := by
unfold cancel
cases hsub : findSubById st i with
| none => exact legalTransition_unchanged hwf
| some s0 =>
by_cases ha : s0.status = SubStatus.active
· simp only [ha, if_true, ite_true]
  exact legalTransition_replaceSub hwf (findSubById_mem hsub).1 rfl
    (Or.inr (Or.inr (Or.inl ⟨ha, rfl⟩)))
· simp only [ha, if_false, ite_false]
  exact legalTransition_unchanged hwf

/-- `expire` moves statuses only along legal transitions: it expires only
an active row whose end date has passed. -/
lemma legalTransition_expire (st : Store) (now i : Nat) (hwf : subIdUnique st) :
    ∀ s ∈ st.subs, ∀ s' ∈ (expire st now i).2.subs, s'.id = s.id →
      legalTransition s.status s'.status := by
unfold expire
cases hsub : findSubById st i with
| none => exact legalTransition_unchanged hwf
| some s0 =>
by_cases ha : s0.status = SubStatus.active ∧ endDatePassed s0 now = true
· simp only [ha, if_true, ite_true]
  exact legalTransition_replaceSub hwf (findSubById_mem hsub).1 rfl
    (Or.inr (Or.inl ⟨ha.1, rfl⟩))
· simp only [ha, if_false, ite_false]
  exact legalTransition_unchanged hwf

/-- `recordProgress` never changes a status. -/
lemma legalTransition_recordProgress (st : Store) (i : Nat) (p : Int)
    (hwf : subIdUnique st) :
    ∀ s ∈ st.subs, ∀ s' ∈ (recordProgress st i p).2.subs, s'.id = s.id →
      legalTransition s.status s'.status := by
unfold recordProgress
by_cases hp : p < 0 ∨ 100 < p
· simp only [hp, if_true, ite_true]
  exact legalTransition_unchanged hwf
· simp only [hp, if_false, ite_false]
  cases hsub : findSubById st i with
  | none => exact legalTransition_unchanged hwf
  | some s0 =>
  by_cases ha : s0.status = SubStatus.active
  · simp only [ha, if_true, ite_true]
    exact legalTransition_replaceSub hwf (findSubById_mem hsub).1 rfl (Or.inl ha)
  · simp only [ha, if_false, ite_false]
    exact legalTransition_unchanged hwf

/-- C7: under the primary key of the subscriptions table, every lifecycle
event moves every row's status only along the legal transitions —
active→expired, active→cancelled, expired|cancelled→active, or staying
put — and cancel on a row that is not active is a no-op returning the
current state rather than an error. -/
theorem subscription_status_transitions :
    (∀ (st : Store) (e : Event) (s s' : Subscription), subIdUnique st → s ∈ st.subs →
      s' ∈ (applyEvent st e).subs → s'.id = s.id → legalTransition s.status s'.status) ∧
    (∀ (st : Store) (i : Nat) (s : Subscription), findSubById st i = some s →
      s.status ≠ SubStatus.active → cancel st i = (Except.ok s, st)) := by
constructor
· intro st e s s' hwf hs hs' hid
  cases e with
  | subscribeE now newEnd a b => exact legalTransition_subscribe st now newEnd a b hwf s hs s' hs' hid
  | cancelE i => exact legalTransition_cancel st i hwf s hs s' hs' hid
  | expireE now i => exact legalTransition_expire st now i hwf s hs s' hs' hid
  | recordProgressE i p => exact legalTransition_recordProgress st i p hwf s hs s' hs' hid
· intro st i s hsub hna
  unfold cancel
  rw [hsub]
  dsimp only
  rw [if_neg hna]

/-- Witness for C7: cancelling the active demo subscription is the legal
active→cancelled transition, and cancel on the already-cancelled demo row
is a no-op returning the current state. -/
theorem subscription_status_transitions_witness :
    legalTransition demoRow30.status SubStatus.cancelled ∧
    cancel demoStore 31 = (Except.ok demoRow31, demoStore) :=
⟨subscription_status_transitions.1 demoStore (Event.cancelE 30) demoRow30
  { id := 30, studentId := 2, courseId := 10, status := SubStatus.cancelled,
    startDate := 0, endDate := none, progress := 40, completed := false }
  (by decide) (by decide) (by decide) (by decide),
 subscription_status_transitions.2 demoStore 31 demoRow31 (by decide) (by decide)⟩

/-- Counterexample to C8: a store that satisfies every constraint the
source schema declares while holding two distinct content rows of the same
course with equal order values — the CourseContent model declares no
uniqueness on order. -/
theorem order_unique_within_course_counterexample :
    storeWF cexStoreOrder ∧ ¬ orderUniqueWithinCourse cexStoreOrder := by
constructor
· decide
· decide

/-- C8 (amended): order is a plain sequencing integer — created content
without an explicit order receives the declared default 0, and the schema
does not make order unique within a course: a schema-conformant store may
hold distinct items of one course sharing an order value. -/
theorem order_defaults_and_not_unique :
    (∀ (st : Store) (inp : ContentInput) (x : CourseContent) (st2 : Store),
      inp.order = none → createContent st inp = (Except.ok x, st2) → x.order = 0) ∧
    (∃ st : Store, storeWF st ∧ ∃ x ∈ st.contents, ∃ y ∈ st.contents,
      x.courseId = y.courseId ∧ x ≠ y ∧ x.order = y.order) := by
constructor
· intro st inp x st2 hord h
  unfold createContent at h
  cases hc : findCourse st inp.courseId with
  | none => rw [hc] at h; simp at h
  | some c =>
    rw [hc] at h
    dsimp only at h
    simp only [Prod.mk.injEq, Except.ok.injEq] at h
    rw [← h.1]
    simp [hord]
· exact ⟨cexStoreOrder, by decide, by decide⟩

/-- Witness for C8 (amended): creating a lesson on the demo store without
an explicit order yields order 0. -/
theorem order_defaults_and_not_unique_witness :
    ({ id := 200, courseId := 10, title := "n", type := ContentType.text,
       order := 0, isFree := false } : CourseContent).order = 0 :=
order_defaults_and_not_unique.1 demoStore
  { courseId := 10, title := "n", type := ContentType.text, order := none, isFree := none }
  { id := 200, courseId := 10, title := "n", type := ContentType.text,
    order := 0, isFree := false }
  (createContent demoStore
    { courseId := 10, title := "n", type := ContentType.text, order := none, isFree := none }).2
  (by decide) (by decide)

/-- Counterexample to C9: course creation succeeds although the supplied
teacherId resolves to a student-role user — the declared foreign key
checks only that the users row exists, not that its role is teacher. -/
theorem teacher_role_not_enforced_counterexample :
    (createCourse cexStoreRole { title := "t", price := 0, status := none, teacherId := 2 }).1 =
      Except.ok { id := 300, title := "t", price := 0, status := CourseStatus.draft, teacherId := 2 } ∧
    findUser cexStoreRole 2 = some { id := 2, role := Role.student } ∧
    ({ id := 2, role := Role.student } : User).role ≠ Role.teacher := by
refine ⟨by decide, by decide, by decide⟩

/-- C9 (amended): creates and updates of Course and CourseContent enforce
the declared foreign keys — teacherId must reference an existing User (of
any role) and courseId an existing Course; a dangling reference yields
ConstraintViolation and an absent update target yields NotFound, the store
unchanged in both cases. -/
theorem entity_fk_enforcement :
    (∀ (st : Store) (inp : CourseInput), findUser st inp.teacherId = none →
      createCourse st inp = (Except.error SubError.constraintViolation, st)) ∧
    (∀ (st : Store) (inp : CourseInput) (u : User), findUser st inp.teacherId = some u →
      ∃ c st2, createCourse st inp = (Except.ok c, st2) ∧ c.teacherId = inp.teacherId) ∧
    (∀ (st : Store) (inp : ContentInput), findCourse st inp.courseId = none →
      createContent st inp = (Except.error SubError.constraintViolation, st)) ∧
    (∀ (st : Store) (cid tid : Nat), findCourse st cid = none →
      updateCourseTeacher st cid tid = (Except.error SubError.notFound, st)) ∧
    (∀ (st : Store) (cid tid : Nat) (c : Course), findCourse st cid = some c →
      findUser st tid = none →
      updateCourseTeacher st cid tid = (Except.error SubError.constraintViolation, st)) ∧
    (∀ (st : Store) (xid ncid : Nat), findContent st xid = none →
      updateContentCourse st xid ncid = (Except.error SubError.notFound, st)) ∧
    (∀ (st : Store) (xid ncid : Nat) (x : CourseContent), findContent st xid = some x →
      findCourse st ncid = none →
      updateContentCourse st xid ncid = (Except.error SubError.constraintViolation, st)) := by
refine ⟨?_, ?_, ?_, ?_, ?_, ?_, ?_⟩
· intro st inp h
  unfold createCourse
  rw [h]
· intro st inp u h
  unfold createCourse
  rw [h]
  exact ⟨_, _, rfl, rfl⟩
· intro st inp h
  unfold createContent
  rw [h]
· intro st cid tid h
  unfold updateCourseTeacher
  rw [h]
· intro st cid tid c hc h
  unfold updateCourseTeacher
  rw [hc]
  dsimp only
  rw [h]
· intro st xid ncid h
  unfold updateContentCourse
  rw [h]
· intro st xid ncid x hx h
  unfold updateContentCourse
  rw [hx]
  dsimp only
  rw [h]

/-- Witness for C9 (amended): on the demo store, a dangling teacherId is
rejected with ConstraintViolation, a resolvable teacherId is accepted, and
updating a content row to a dangling course is rejected. -/
theorem entity_fk_enforcement_witness :
    createCourse demoStore { title := "t", price := 0, status := none, teacherId := 99 } =
      (Except.error SubError.constraintViolation, demoStore) ∧
    (∃ c st2, createCourse demoStore
        { title := "t", price := 0, status := none, teacherId := 1 } =
        (Except.ok c, st2) ∧ c.teacherId = 1) ∧
    updateContentCourse demoStore 20 99 = (Except.error SubError.constraintViolation, demoStore) :=
⟨entity_fk_enforcement.1 demoStore
  { title := "t", price := 0, status := none, teacherId := 99 } (by decide),
 entity_fk_enforcement.2.1 demoStore
  { title := "t", price := 0, status := none, teacherId := 1 } ⟨1, Role.teacher⟩ (by decide),
 entity_fk_enforcement.2.2.2.2.2.2 demoStore 20 99
  { id := 20, courseId := 10, title := "l1", type := ContentType.video,
    order := 0, isFree := false } (by decide) (by decide)⟩

/-- C10: content created without an explicit isFree value is gated by
default — the declared default of the isFree column is false. -/
theorem isFree_defaults_to_false :
    ∀ (st : Store) (inp : ContentInput) (x : CourseContent) (st2 : Store),
      inp.isFree = none → createContent st inp = (Except.ok x, st2) → x.isFree = false := by
intro st inp x st2 hfree h
unfold createContent at h
cases hc : findCourse st inp.courseId with
| none => rw [hc] at h; simp at h
| some c =>
  rw [hc] at h
  dsimp only at h
  simp only [Prod.mk.injEq, Except.ok.injEq] at h
  rw [← h.1]
  simp [hfree]

/-- Witness for C10: creating a lesson on the demo store without an
explicit isFree yields a gated row. -/
theorem isFree_defaults_to_false_witness :
    ({ id := 200, courseId := 10, title := "m", type := ContentType.video,
       order := 3, isFree := false } : CourseContent).isFree = false :=
isFree_defaults_to_false demoStore
  { courseId := 10, title := "m", type := ContentType.video, order := some 3, isFree := none }
  { id := 200, courseId := 10, title := "m", type := ContentType.video,
    order := 3, isFree := false }
  (createContent demoStore
    { courseId := 10, title := "m", type := ContentType.video, order := some 3, isFree := none }).2
  (by decide) (by decide)

end Edumate
